import Mathlib

/-!
Verification of the embeddings/attention service core against its source.

The development shallowly embeds the Python source:
* `DimensionalityReducer.reduce` from `app/services/reduction_service.py`
* `ModelService.dimensionality_reduction` from `app/model_service.py` (legacy)
* `ModelService.get_embeddings_and_attention` / `tokenize_text` from
  `app/services/model_service.py`
* `ModelManager.get_model` from `app/services/model_manager.py` together with
  the module-level `_TOKENIZER_CACHE` / `_MODEL_CACHE` dictionaries
* the `/tokenize` endpoint dispatch from `app/api/endpoints/tokenize.py`
* the `/process` handler from `app/main.py`

External numeric libraries (sklearn's `StandardScaler`, `PCA`, `umap.UMAP`)
and the transformer tokenizer/encoder are collaborators: they are passed in
as function parameters, and theorems assume only their documented shape
contracts.  `MinMaxScaler` with feature range `(-1, 1)` is embedded exactly
(its documented formula is exact rational arithmetic).
-/

/-- A real matrix, stored as a list of rows (exact rationals stand in for
the float arithmetic; the spec's range guarantee is stated up to rounding). -/
abbrev Mat := List (List ℚ)

/-- Well-formedness `wellFormed M r c`: the matrix has `r` rows, each of length `c`. -/
def wellFormed (M : Mat) (r c : Nat) : Prop :=
  M.length = r ∧ ∀ row ∈ M, row.length = c

instance (M : Mat) (r c : Nat) : Decidable (wellFormed M r c) := by
  unfold wellFormed; infer_instance

/-- A NumPy array as the reducer sees it: its shape tuple together with the
2-D payload (meaningful when the shape has exactly two entries). -/
structure NDArray where
  shape : List Nat
  mat : Mat
  deriving DecidableEq

/-- Column `j` of a matrix, as read by per-feature scalers
(missing entries of ragged rows read as 0; irrelevant for rectangular input). -/
def colGet (M : Mat) (j : Nat) : List ℚ :=
  M.map (fun row => row.getD j 0)

/-- Minimum of a list of rationals (0 for the empty list, which per-feature
scalers never consult). -/
def listMin : List ℚ → ℚ
  | [] => 0
  | x :: xs => xs.foldl min x

/-- Maximum of a list of rationals. -/
def listMax : List ℚ → ℚ
  | [] => 0
  | x :: xs => xs.foldl max x

/-- sklearn `MinMaxScaler(feature_range=(-1, 1))` on one entry: the scaled
value is `(x - col_min) / (col_max - col_min) * 2 - 1`, a zero column range
being replaced by 1 (sklearn's `_handle_zeros_in_scale`). -/
def mmScale (mn mx x : ℚ) : ℚ :=
  let range := if mx - mn = 0 then 1 else mx - mn
  (x - mn) / range * 2 - 1

/-- sklearn `MinMaxScaler(feature_range=(-1, 1)).fit_transform`: each column
is independently mapped into `[-1, 1]`; the number of features is read off
the data itself. -/
def minMaxScale (M : Mat) : Mat :=
  let ncols := (M.headD []).length
  M.map (fun row =>
    (List.range ncols).map (fun j =>
      mmScale (listMin (colGet M j)) (listMax (colGet M j)) (row.getD j 0)))

/-- The external numeric collaborators used by both reduction pipelines:
`StandardScaler().fit_transform`, `PCA(n).fit_transform`,
`UMAP(n).fit_transform`.  Each may fail (raise), as sklearn does e.g. on
zero-sample input. -/
structure SkLearn where
  standardScaler : Mat → Except String Mat
  pca : Nat → Mat → Except String Mat
  umap : Nat → Mat → Except String Mat

/-- sklearn's documented contract for `StandardScaler.fit_transform`:
when it succeeds it preserves the input shape. -/
def StdContract (f : Mat → Except String Mat) : Prop :=
  ∀ M r c N, wellFormed M r c → f M = .ok N → wellFormed N r c

/-- The documented contract for `PCA(n).fit_transform` and
`UMAP(n).fit_transform`: on success the sample count is preserved and the
feature count becomes `n`. -/
def ProjContract (p : Nat → Mat → Except String Mat) : Prop :=
  ∀ n M r c N, wellFormed M r c → p n M = .ok N → wellFormed N r n

/-- The failures a reduction call can surface (Python `ValueError`s and
propagated sklearn exceptions). -/
inductive RError where
  /-- Raised when `seq_len, hidden_dim = embeddings.shape` fails: the array was not 2-D. -/
  | shapeUnpack (ndim : Nat)
  /-- Raised as Cannot reduce seq_len tokens to n_components dimensions. -/
  | insufficientSamples (seq_len n_components : Nat)
  /-- An exception propagated out of an sklearn / umap call. -/
  | sklearnError (msg : String)
  /-- Raised as Unsupported dimensionality reduction method. -/
  | unsupportedMethod (method : String)
  deriving DecidableEq

/-- The numerically expensive stages of the pipeline, recorded in the order
the Python code executes them (making evaluation order observable). -/
inductive Stage where
  | standardize
  | project
  | rescale
  deriving DecidableEq

/-- Embedding of `DimensionalityReducer.reduce` from `app/services/reduction_service.py`:
unpack `embeddings.shape`; reject `seq_len < n_components`; standardize;
dispatch on the method (PCA / UMAP / raise); min-max rescale to `[-1, 1]`.
Returns the result (or the raised error) together with the list of stages
that were executed. -/
def DimensionalityReducer.reduce (sk : SkLearn) (method : String)
    (n_components : Nat) (embeddings : NDArray) :
    Except RError Mat × List Stage :=
  match embeddings.shape with
  | [seq_len, _hidden_dim] =>
    if seq_len < n_components then
      (.error (.insufficientSamples seq_len n_components), [])
    else
      match sk.standardScaler embeddings.mat with
      | .error e => (.error (.sklearnError e), [.standardize])
      | .ok embeddings_normalized =>
        if method = "pca" then
          match sk.pca n_components embeddings_normalized with
          | .error e => (.error (.sklearnError e), [.standardize, .project])
          | .ok reduced =>
            (.ok (minMaxScale reduced), [.standardize, .project, .rescale])
        else if method = "umap" then
          match sk.umap n_components embeddings_normalized with
          | .error e => (.error (.sklearnError e), [.standardize, .project])
          | .ok reduced =>
            (.ok (minMaxScale reduced), [.standardize, .project, .rescale])
        else
          (.error (.unsupportedMethod method), [.standardize])
  | s => (.error (.shapeUnpack s.length), [])

/-- The matrix `np.zeros((r, n))`. -/
def zeroMat (r n : Nat) : Mat :=
  List.replicate r (List.replicate n (0 : ℚ))

/-- Embedding of `ModelService.dimensionality_reduction` from the legacy
`app/model_service.py`: same shape / sample-count checks and standardization
(outside the `try` block, so their failures propagate), but the method
dispatch, projection and rescaling run inside `try ... except`, and any
failure there is replaced by `np.zeros((seq_len, n_components))` returned as
a normal result. -/
def ModelService.dimensionality_reduction (sk : SkLearn) (embeddings : NDArray)
    (method : String) (n_components : Nat) : Except RError Mat :=
  match embeddings.shape with
  | [seq_len, _hidden_dim] =>
    if seq_len < n_components then
      .error (.insufficientSamples seq_len n_components)
    else
      match sk.standardScaler embeddings.mat with
      | .error e => .error (.sklearnError e)
      | .ok embeddings_normalized =>
        let attempt : Except RError Mat :=
          if method = "pca" then
            match sk.pca n_components embeddings_normalized with
            | .error e => .error (.sklearnError e)
            | .ok reduced => .ok (minMaxScale reduced)
          else if method = "umap" then
            match sk.umap n_components embeddings_normalized with
            | .error e => .error (.sklearnError e)
            | .ok reduced => .ok (minMaxScale reduced)
          else
            .error (.unsupportedMethod method)
        match attempt with
        | .ok reduced => .ok reduced
        | .error _ => .ok (zeroMat seq_len n_components)
  | s => .error (.shapeUnpack s.length)

/-- The transformer tokenizer collaborator (`AutoTokenizer`): `encode` is
`tokenizer(text, add_special_tokens=b)["input_ids"][0]`, `idToToken` is the
elementwise action of `convert_ids_to_tokens`. -/
structure Tokenizer where
  encode : String → Bool → List Nat
  idToToken : Nat → String

/-- Embedding of `tokenizer.convert_ids_to_tokens(ids)`: one token string per id. -/
def Tokenizer.convertIdsToTokens (t : Tokenizer) (ids : List Nat) :
    List String :=
  ids.map t.idToToken

/-- What the encoder's forward pass returns after the batch dimension is
stripped: `outputs.last_hidden_state[0]` and `[att[0] for att in
outputs.attentions]` (per layer, per head, a `seq_len × seq_len` matrix). -/
structure EncoderOutput where
  lastHidden : Mat
  attentions : List (List Mat)

/-- The transformer encoder collaborator (`AutoModel` in eval mode,
`output_attentions=True`); inference-only, a pure function of the ids. -/
structure EncModel where
  forward : List Nat → EncoderOutput

/-- The collaborator contract for a forward pass on `n` ids: the hidden
state has one row per id, and every layer's every head is an `n × n`
attention matrix. -/
def EncoderOutput.Aligned (out : EncoderOutput) (n : Nat) : Prop :=
  out.lastHidden.length = n ∧
    ∀ layer ∈ out.attentions, ∀ hd ∈ layer,
      hd.length = n ∧ ∀ row ∈ hd, row.length = n

instance (out : EncoderOutput) (n : Nat) : Decidable (out.Aligned n) := by
  unfold EncoderOutput.Aligned; infer_instance

/-- A loaded `ModelService` from `app/services/model_service.py`: the model
name together with its tokenizer and encoder handles. -/
structure ModelService where
  model_name : String
  tokenizer : Tokenizer
  model : EncModel

/-- Embedding of `ModelService.get_embeddings_and_attention`: tokenize with special
tokens included (the tokenizer's default), run the forward pass, and return
token strings, per-token hidden states, and per-layer attention. -/
def ModelService.get_embeddings_and_attention (svc : ModelService)
    (text : String) : List String × Mat × List (List Mat) :=
  let ids := svc.tokenizer.encode text true
  let out := svc.model.forward ids
  let tokens := svc.tokenizer.convertIdsToTokens ids
  (tokens, out.lastHidden, out.attentions)

/-- Embedding of `ModelService.tokenize_text`: tokenize with
`add_special_tokens=False` and convert ids to token strings; no forward
pass. -/
def ModelService.tokenize_text (svc : ModelService) (text : String) :
    List String :=
  svc.tokenizer.convertIdsToTokens (svc.tokenizer.encode text false)

/-- The external loading capability (`AutoTokenizer.from_pretrained`,
`AutoModel.from_pretrained`); either call may fail on an unknown or
malformed name. -/
structure Loader where
  loadTokenizer : String → Except String Tokenizer
  loadModel : String → Except String EncModel

/-- The mutable caches of the source: the module-level `_TOKENIZER_CACHE`
and `_MODEL_CACHE` of `app/services/model_service.py` and the
`ModelManager.model_cache` of `app/services/model_manager.py`, as
association lists keyed by model name. -/
structure CacheState where
  tokenizerCache : List (String × Tokenizer)
  modelCache : List (String × EncModel)
  managerCache : List (String × ModelService)

/-- A record of one external load call (the expensive operations the caches
exist to avoid repeating). -/
inductive LoadEvent where
  | tokenizerLoad (name : String)
  | modelLoad (name : String)

/-- Embedding of `ModelService.__init__`: fill `_TOKENIZER_CACHE[name]` and
`_MODEL_CACHE[name]` on miss (a raising load leaves no entry behind), then
bind the cached handles.  Returns the outcome, the updated caches, and the
load calls that were performed. -/
def ModelService.init (ld : Loader) (s : CacheState) (name : String) :
    Except String ModelService × CacheState × List LoadEvent :=
  match s.tokenizerCache.lookup name with
  | some tok =>
    match s.modelCache.lookup name with
    | some mdl => (.ok ⟨name, tok, mdl⟩, s, [])
    | none =>
      match ld.loadModel name with
      | .error e => (.error e, s, [.modelLoad name])
      | .ok mdl =>
        (.ok ⟨name, tok, mdl⟩,
         { s with modelCache := (name, mdl) :: s.modelCache },
         [.modelLoad name])
  | none =>
    match ld.loadTokenizer name with
    | .error e => (.error e, s, [.tokenizerLoad name])
    | .ok tok =>
      let s₁ := { s with tokenizerCache := (name, tok) :: s.tokenizerCache }
      match s₁.modelCache.lookup name with
      | some mdl => (.ok ⟨name, tok, mdl⟩, s₁, [.tokenizerLoad name])
      | none =>
        match ld.loadModel name with
        | .error e => (.error e, s₁, [.tokenizerLoad name, .modelLoad name])
        | .ok mdl =>
          (.ok ⟨name, tok, mdl⟩,
           { s₁ with modelCache := (name, mdl) :: s₁.modelCache },
           [.tokenizerLoad name, .modelLoad name])

/-- Embedding of `ModelManager.get_model`: return the cached `ModelService` for `name`,
constructing and caching one on miss. -/
def ModelManager.get_model (ld : Loader) (s : CacheState) (name : String) :
    Except String ModelService × CacheState × List LoadEvent :=
  match s.managerCache.lookup name with
  | some svc => (.ok svc, s, [])
  | none =>
    match ModelService.init ld s name with
    | (.error e, s', evs) => (.error e, s', evs)
    | (.ok svc, s', evs) =>
      (.ok svc, { s' with managerCache := (name, svc) :: s'.managerCache },
       evs)

/-- The attribute names `ModelManager` actually defines
(`app/services/model_manager.py`): Python resolves `model_manager.<attr>`
against this set, raising `AttributeError` otherwise. -/
def ModelManager.attributes : List String :=
  ["get_model", "get_embeddings", "get_attention",
   "get_embeddings_for_reduction", "list_models"]

/-- HTTP failure outcomes the endpoints produce
(`HTTPException(status_code=400/500)`). -/
inductive HttpError where
  | badRequest (detail : String)
  | internalError (detail : String)
  deriving DecidableEq

/-- The `/tokenize` handler from `app/api/endpoints/tokenize.py`: it calls
`model_manager.tokenize_only(text, model_name)`.  Attribute resolution on
`ModelManager` is modelled explicitly; a missing attribute raises
`AttributeError`, which the handler's `except Exception` maps to a 500
response.  (`svc` stands for the service the manager would use were the
attribute present, in which case the intended call is
`ModelService.tokenize_text`.) -/
def tokenizeEndpoint (svc : ModelService) (text model_name : String) :
    Except HttpError (List String × String) :=
  if ModelManager.attributes.contains "tokenize_only" then
    .ok (svc.tokenize_text text, model_name)
  else
    .error (.internalError
      "Error tokenizing text: ModelManager object has no attribute tokenize_only")

/-- The `/process` response body assembled by `app/main.py` (attention rows
elided: the reduction claims do not consult them). -/
structure ProcessResponse where
  tokens : List String
  embeddings : Mat
  reduced_embeddings : Option Mat
  model_name : String

/-- The reduction part of `process_text` in `app/main.py`: when reduction is
requested it calls the legacy `ModelService.dimensionality_reduction` on the
hidden states (a NumPy array whose shape is its row and column counts) and,
should that raise, logs a warning and leaves `reduced_embeddings = None`
("Don't fail the whole request if reduction fails"); the response is then
returned as a success either way. -/
def process_text (sk : SkLearn) (svc : ModelService) (text : String)
    (dim_reduction : Bool) (reduction_method : String) (n_components : Nat) :
    ProcessResponse :=
  let (tokens, hidden_states, _attentions) :=
    svc.get_embeddings_and_attention text
  let arr : NDArray :=
    ⟨[hidden_states.length, (hidden_states.headD []).length], hidden_states⟩
  let reduced : Option Mat :=
    if dim_reduction then
      match ModelService.dimensionality_reduction sk arr reduction_method
          n_components with
      | .ok reduced => some reduced
      | .error _ => none
    else none
  ⟨tokens, hidden_states, reduced, svc.model_name⟩

/-! ### Helper lemmas: list minima and maxima, min-max rescaling -/

theorem foldl_min_le_init (l : List ℚ) (a : ℚ) : l.foldl min a ≤ a := by
  induction l generalizing a with
  | nil => simp
  | cons y ys ih => exact le_trans (ih (min a y)) (min_le_left a y)

theorem foldl_min_le_mem {l : List ℚ} {x : ℚ} (a : ℚ) (hx : x ∈ l) :
    l.foldl min a ≤ x := by
  induction l generalizing a with
  | nil => cases hx
  | cons y ys ih =>
    rcases List.mem_cons.mp hx with rfl | hmem
    · exact le_trans (foldl_min_le_init ys (min a x)) (min_le_right a x)
    · exact ih (min a y) hmem

theorem init_le_foldl_max (l : List ℚ) (a : ℚ) : a ≤ l.foldl max a := by
  induction l generalizing a with
  | nil => simp
  | cons y ys ih => exact le_trans (le_max_left a y) (ih (max a y))

theorem mem_le_foldl_max {l : List ℚ} {x : ℚ} (a : ℚ) (hx : x ∈ l) :
    x ≤ l.foldl max a := by
  induction l generalizing a with
  | nil => cases hx
  | cons y ys ih =>
    rcases List.mem_cons.mp hx with rfl | hmem
    · exact le_trans (le_max_right a x) (init_le_foldl_max ys (max a x))
    · exact ih (max a y) hmem

theorem listMin_le {l : List ℚ} {x : ℚ} (hx : x ∈ l) : listMin l ≤ x := by
  cases l with
  | nil => cases hx
  | cons y ys =>
    rcases List.mem_cons.mp hx with rfl | hmem
    · exact foldl_min_le_init ys x
    · exact foldl_min_le_mem y hmem

theorem le_listMax {l : List ℚ} {x : ℚ} (hx : x ∈ l) : x ≤ listMax l := by
  cases l with
  | nil => cases hx
  | cons y ys =>
    rcases List.mem_cons.mp hx with rfl | hmem
    · exact init_le_foldl_max ys x
    · exact mem_le_foldl_max y hmem

theorem mmScale_mem_Icc {mn mx x : ℚ} (h1 : mn ≤ x) (h2 : x ≤ mx) :
    -1 ≤ mmScale mn mx x ∧ mmScale mn mx x ≤ 1 := by
  unfold mmScale
  by_cases h0 : mx - mn = 0
  · have hx : x = mn := le_antisymm (by linarith) h1
    simp [h0, hx]
  · simp only [h0, if_false]
    have hpos : 0 < mx - mn := lt_of_le_of_ne (by linarith) (Ne.symm h0)
    have hub : (x - mn) / (mx - mn) ≤ 1 := by
      rw [div_le_one hpos]; linarith
    have hlb : 0 ≤ (x - mn) / (mx - mn) :=
      div_nonneg (by linarith) (le_of_lt hpos)
    constructor <;> nlinarith

theorem minMaxScale_range (M : Mat) :
    ∀ row ∈ minMaxScale M, ∀ x ∈ row, -1 ≤ x ∧ x ≤ 1 := by
  intro row hrow x hx
  unfold minMaxScale at hrow
  obtain ⟨row₀, hrow₀, rfl⟩ := List.mem_map.mp hrow
  obtain ⟨j, _, rfl⟩ := List.mem_map.mp hx
  have hmem : row₀.getD j 0 ∈ colGet M j := List.mem_map_of_mem _ hrow₀
  exact mmScale_mem_Icc (listMin_le hmem) (le_listMax hmem)

theorem minMaxScale_wf {M : Mat} {r c : Nat} (h : wellFormed M r c) :
    wellFormed (minMaxScale M) r c := by
  obtain ⟨hlen, hrows⟩ := h
  constructor
  · simpa [minMaxScale] using hlen
  · intro row hrow
    unfold minMaxScale at hrow
    obtain ⟨row₀, hrow₀, rfl⟩ := List.mem_map.mp hrow
    have hne : M ≠ [] := by
      intro hM; rw [hM] at hrow₀; cases hrow₀
    have hhead : (M.headD []).length = c := by
      cases M with
      | nil => exact absurd rfl hne
      | cons a as => exact hrows a (List.mem_cons_self a as)
    simp only [List.length_map, List.length_range]
    exact hhead

/-! ### Concrete collaborator instantiations (used by witnesses) -/

/-- A projection that keeps the first `n` features (reads missing entries as
0), used to instantiate the PCA/UMAP collaborator slots concretely. -/
def projTake (n : Nat) (M : Mat) : Mat :=
  M.map (fun row => (List.range n).map (fun j => row.getD j 0))

/-- A concrete, always-succeeding `SkLearn` bundle: identity standardizer
and first-`n`-features projections. -/
def skId : SkLearn where
  standardScaler := fun M => .ok M
  pca := fun n M => .ok (projTake n M)
  umap := fun n M => .ok (projTake n M)

theorem skId_std_contract : StdContract skId.standardScaler := by
  intro M r c N hwf h
  simp only [skId] at h
  cases h
  exact hwf

theorem projTake_wf {M : Mat} {r c : Nat} (n : Nat) (hwf : wellFormed M r c) :
    wellFormed (projTake n M) r n := by
  constructor
  · simp [projTake, hwf.1]
  · intro row hrow
    obtain ⟨row₀, _, rfl⟩ := List.mem_map.mp hrow
    simp

theorem skId_pca_contract : ProjContract skId.pca := by
  intro n M r c N hwf h
  simp only [skId] at h
  cases h
  exact projTake_wf n hwf

theorem skId_umap_contract : ProjContract skId.umap := by
  intro n M r c N hwf h
  simp only [skId] at h
  cases h
  exact projTake_wf n hwf

/-! ### C3: the insufficient-samples check fires first -/

/-- C3: for every 2-D input with `seq_len < n_components`, both reduction
implementations fail with the insufficient-samples error — before any
pipeline stage has run (the recorded stage list is empty) — and neither
returns a degraded result. -/
theorem C3_insufficient_samples_first (sk : SkLearn) (method : String)
    (n : Nat) (a : NDArray) (r c : Nat)
    (hshape : a.shape = [r, c]) (hlt : r < n) :
    DimensionalityReducer.reduce sk method n a
        = (.error (.insufficientSamples r n), []) ∧
    ModelService.dimensionality_reduction sk a method n
        = .error (.insufficientSamples r n) := by
  unfold DimensionalityReducer.reduce ModelService.dimensionality_reduction
  rw [hshape]
  simp [hlt]

/-- Witness for C3 at the spec's example scenario 4: a 2-token matrix with
`n_components = 5`. -/
theorem C3_witness :
    DimensionalityReducer.reduce skId "pca" 5 ⟨[2, 3], [[1, 2, 3], [4, 5, 6]]⟩
        = (.error (.insufficientSamples 2 5), []) ∧
    ModelService.dimensionality_reduction skId ⟨[2, 3], [[1, 2, 3], [4, 5, 6]]⟩
        "pca" 5 = .error (.insufficientSamples 2 5) :=
  C3_insufficient_samples_first skId "pca" 5 ⟨[2, 3], [[1, 2, 3], [4, 5, 6]]⟩
    2 3 rfl (by decide)

/-! ### C10: non-2-D input fails at shape unpacking -/

theorem reduce_shape_not_two (sk : SkLearn) (method : String) (n : Nat)
    (a : NDArray) (h : a.shape.length ≠ 2) :
    DimensionalityReducer.reduce sk method n a
        = (.error (.shapeUnpack a.shape.length), []) := by
  unfold DimensionalityReducer.reduce
  rcases a with ⟨shape, mat⟩
  match shape, h with
  | [], _ => rfl
  | [x], _ => rfl
  | [x, y], h => exact absurd rfl h
  | x :: y :: z :: t, _ => rfl

theorem legacy_shape_not_two (sk : SkLearn) (method : String) (n : Nat)
    (a : NDArray) (h : a.shape.length ≠ 2) :
    ModelService.dimensionality_reduction sk a method n
        = .error (.shapeUnpack a.shape.length) := by
  unfold ModelService.dimensionality_reduction
  rcases a with ⟨shape, mat⟩
  match shape, h with
  | [], _ => rfl
  | [x], _ => rfl
  | [x, y], h => exact absurd rfl h
  | x :: y :: z :: t, _ => rfl

/-- C10: an input array that is not exactly 2-dimensional makes both
reduction implementations fail with the shape-unpacking error before any
stage runs, and in that case neither the insufficient-samples nor the
unsupported-method error is reachable. -/
theorem C10_shape_unpack_first (sk : SkLearn) (method : String) (n : Nat)
    (a : NDArray) (h : a.shape.length ≠ 2) :
    DimensionalityReducer.reduce sk method n a
        = (.error (.shapeUnpack a.shape.length), []) ∧
    ModelService.dimensionality_reduction sk a method n
        = .error (.shapeUnpack a.shape.length) ∧
    (∀ r k, (DimensionalityReducer.reduce sk method n a).1
        ≠ .error (.insufficientSamples r k)) ∧
    (∀ m, (DimensionalityReducer.reduce sk method n a).1
        ≠ .error (.unsupportedMethod m)) := by
  have h₁ := reduce_shape_not_two sk method n a h
  have h₂ := legacy_shape_not_two sk method n a h
  refine ⟨h₁, h₂, ?_, ?_⟩
  · intro r k hcontra
    rw [h₁] at hcontra
    cases hcontra
  · intro m hcontra
    rw [h₁] at hcontra
    cases hcontra

/-- Witness for C10: a 1-D array of four entries. -/
theorem C10_witness :
    DimensionalityReducer.reduce skId "pca" 2 ⟨[4], [[1, 2, 3, 4]]⟩
        = (.error (.shapeUnpack 1), []) ∧
    ModelService.dimensionality_reduction skId ⟨[4], [[1, 2, 3, 4]]⟩ "pca" 2
        = .error (.shapeUnpack 1) ∧
    (∀ r k, (DimensionalityReducer.reduce skId "pca" 2 ⟨[4], [[1, 2, 3, 4]]⟩).1
        ≠ .error (.insufficientSamples r k)) ∧
    (∀ m, (DimensionalityReducer.reduce skId "pca" 2 ⟨[4], [[1, 2, 3, 4]]⟩).1
        ≠ .error (.unsupportedMethod m)) :=
  C10_shape_unpack_first skId "pca" 2 ⟨[4], [[1, 2, 3, 4]]⟩ (by decide)

/-! ### C4: the unsupported-method check -/

/-- C4 is false as stated: on the valid 2×2 matrix `[[1,2],[3,4]]` with the
unrecognized method "bogus", `DimensionalityReducer.reduce` does fail with
the unsupported-method error, but the standardization stage has already been
executed (the check is *not* before the numerically expensive work); on a
1-D array the call fails with a shape error instead of UnsupportedMethod
(not "regardless of matrix validity"); and the legacy
`ModelService.dimensionality_reduction` does not fail at all — it returns a
zero matrix. -/
theorem C4_counterexample :
    DimensionalityReducer.reduce skId "bogus" 2 ⟨[2, 2], [[1, 2], [3, 4]]⟩
        = (.error (.unsupportedMethod "bogus"), [Stage.standardize]) ∧
    (DimensionalityReducer.reduce skId "bogus" 2 ⟨[4], [[1, 2, 3, 4]]⟩).1
        = .error (.shapeUnpack 1) ∧
    ModelService.dimensionality_reduction skId ⟨[2, 2], [[1, 2], [3, 4]]⟩
        "bogus" 2 = .ok (zeroMat 2 2) :=
  ⟨rfl, rfl, rfl⟩

/-- C4 amended: for every 2-D input with enough samples whose
standardization succeeds, an unrecognized method makes
`DimensionalityReducer.reduce` fail with `UnsupportedMethod{method}`; the
check runs after standardization but before any projection or rescaling
(the recorded stages are exactly `[standardize]`), while the legacy
`ModelService.dimensionality_reduction` instead swallows the error and
returns a zero matrix. -/
theorem C4_amended_unsupported_method (sk : SkLearn) (method : String)
    (n : Nat) (a : NDArray) (r c : Nat) (Ms : Mat)
    (hshape : a.shape = [r, c]) (hn : ¬ r < n)
    (hstd : sk.standardScaler a.mat = .ok Ms)
    (hp : method ≠ "pca") (hu : method ≠ "umap") :
    DimensionalityReducer.reduce sk method n a
        = (.error (.unsupportedMethod method), [Stage.standardize]) ∧
    ModelService.dimensionality_reduction sk a method n
        = .ok (zeroMat r n) := by
  unfold DimensionalityReducer.reduce ModelService.dimensionality_reduction
  rw [hshape]
  simp [hn, hstd, hp, hu]

/-- Witness for the amended C4. -/
theorem C4_witness :
    DimensionalityReducer.reduce skId "tsne" 2 ⟨[3, 2], [[1, 2], [3, 4], [5, 6]]⟩
        = (.error (.unsupportedMethod "tsne"), [Stage.standardize]) ∧
    ModelService.dimensionality_reduction skId
        ⟨[3, 2], [[1, 2], [3, 4], [5, 6]]⟩ "tsne" 2 = .ok (zeroMat 3 2) :=
  C4_amended_unsupported_method skId "tsne" 2
    ⟨[3, 2], [[1, 2], [3, 4], [5, 6]]⟩ 3 2 [[1, 2], [3, 4], [5, 6]]
    rfl (by decide) rfl (by decide) (by decide)

/-! ### C5: failed reductions and the zero-matrix substitution -/

/-- A concrete mock `ModelService` (mirroring the repository's own test
mocks): a fixed two-id tokenization and a forward pass with one layer of one
head. -/
def mockTokenizer : Tokenizer where
  encode := fun t _ => if t = "" then [] else [0, 1]
  idToToken := fun i => toString i

def mockEnc : EncModel where
  forward := fun ids =>
    ⟨ids.map (fun _ => [0, 1]),
     [[ids.map (fun _ => ids.map (fun _ => (0 : ℚ)))]]⟩

def mockService : ModelService :=
  ⟨"gpt2", mockTokenizer, mockEnc⟩

/-- C5 is false as stated: a `/process` request with reduction enabled and
an unsupported method gets a **successful** response whose
`reduced_embeddings` is a zero matrix — the reduction failed (the
`DimensionalityReducer` pipeline reports UnsupportedMethod on the same
input) but no structured error and no degradation marker is returned. -/
theorem C5_counterexample :
    (process_text skId mockService "Hello world" true "bogus" 2).reduced_embeddings
        = some (zeroMat 2 2) ∧
    (DimensionalityReducer.reduce skId "bogus" 2
        ⟨[2, 2], [[0, 1], [0, 1]]⟩).1
        = .error (.unsupportedMethod "bogus") :=
  ⟨rfl, rfl⟩

theorem reduce_ok_full_trace (sk : SkLearn) (method : String) (n : Nat)
    (a : NDArray) (R : Mat) (tr : List Stage)
    (hok : DimensionalityReducer.reduce sk method n a = (.ok R, tr)) :
    tr = [Stage.standardize, Stage.project, Stage.rescale] := by
  unfold DimensionalityReducer.reduce at hok
  repeat' split at hok
  all_goals (injection hok with h1 h2)
  all_goals (try cases h1)
  all_goals (exact h2.symm)

/-- C5 amended: the `DimensionalityReducer` (`/reduce`) path never converts
a failed reduction into data — every failure surfaces as a typed error, and
a successful result only arises after all three stages (standardize,
project, rescale) have completed, so no substitution after a failure is
possible.  The legacy `ModelService.dimensionality_reduction` used by
`/process` is the one that substitutes an unmarked zero matrix whenever the
method dispatch or the projection fails after standardization succeeded
(rescaling is exact arithmetic and cannot fail), and `/process` then
returns those zeros as ordinary data. -/
theorem C5_amended_zero_substitution (sk : SkLearn) (svc : ModelService)
    (text method : String) (n r : Nat) (H Ms : Mat)
    (hH : (svc.model.forward (svc.tokenizer.encode text true)).lastHidden = H)
    (hr : H.length = r) (hn : ¬ r < n)
    (hstd : sk.standardScaler H = .ok Ms) :
    ((method ≠ "pca" ∧ method ≠ "umap") →
      (process_text sk svc text true method n).reduced_embeddings
          = some (zeroMat r n) ∧
      (DimensionalityReducer.reduce sk method n
          ⟨[r, (H.headD []).length], H⟩).1
          = .error (.unsupportedMethod method)) ∧
    (∀ e, method = "pca" → sk.pca n Ms = .error e →
      (process_text sk svc text true method n).reduced_embeddings
          = some (zeroMat r n) ∧
      (DimensionalityReducer.reduce sk method n
          ⟨[r, (H.headD []).length], H⟩).1
          = .error (.sklearnError e)) ∧
    (∀ e, method = "umap" → sk.umap n Ms = .error e →
      (process_text sk svc text true method n).reduced_embeddings
          = some (zeroMat r n) ∧
      (DimensionalityReducer.reduce sk method n
          ⟨[r, (H.headD []).length], H⟩).1
          = .error (.sklearnError e)) ∧
    (∀ sk₁ method₁ n₁ a₁ R tr,
      DimensionalityReducer.reduce sk₁ method₁ n₁ a₁ = (.ok R, tr) →
      tr = [Stage.standardize, Stage.project, Stage.rescale]) := by
  refine ⟨?_, ?_, ?_,
    fun sk₁ method₁ n₁ a₁ R tr hok =>
      reduce_ok_full_trace sk₁ method₁ n₁ a₁ R tr hok⟩
  · rintro ⟨hp, hu⟩
    constructor
    · unfold process_text ModelService.get_embeddings_and_attention
        ModelService.dimensionality_reduction
      simp only [hH, hr]
      simp [hn, hstd, hp, hu]
    · unfold DimensionalityReducer.reduce
      simp [hn, hstd, hp, hu]
  · rintro e rfl hpe
    constructor
    · unfold process_text ModelService.get_embeddings_and_attention
        ModelService.dimensionality_reduction
      simp only [hH, hr]
      simp [hn, hstd, hpe]
    · unfold DimensionalityReducer.reduce
      simp [hn, hstd, hpe]
  · rintro e rfl hue
    have hne : ("umap" : String) ≠ "pca" := by decide
    constructor
    · unfold process_text ModelService.get_embeddings_and_attention
        ModelService.dimensionality_reduction
      simp only [hH, hr]
      simp [hn, hstd, hne, hue]
    · unfold DimensionalityReducer.reduce
      simp [hn, hstd, hne, hue]

/-- Collaborators whose PCA projection raises (as sklearn can, e.g. an SVD
convergence failure), used to witness the projection-failure case. -/
def skPcaFail : SkLearn where
  standardScaler := fun M => .ok M
  pca := fun _ _ => .error "SVD did not converge"
  umap := fun n M => .ok (projTake n M)

/-- Witness for the amended C5, exercising the projection-failure branch:
with PCA raising, `/process` answers with an unmarked zero matrix while the
`/reduce` pipeline surfaces the propagated sklearn error. -/
theorem C5_witness :
    ((("pca" : String) ≠ "pca" ∧ ("pca" : String) ≠ "umap") →
      (process_text skPcaFail mockService "Hello world" true "pca" 2).reduced_embeddings
          = some (zeroMat 2 2) ∧
      (DimensionalityReducer.reduce skPcaFail "pca" 2
          ⟨[2, 2], [[0, 1], [0, 1]]⟩).1
          = .error (.unsupportedMethod "pca")) ∧
    (∀ e, ("pca" : String) = "pca" →
      skPcaFail.pca 2 [[0, 1], [0, 1]] = .error e →
      (process_text skPcaFail mockService "Hello world" true "pca" 2).reduced_embeddings
          = some (zeroMat 2 2) ∧
      (DimensionalityReducer.reduce skPcaFail "pca" 2
          ⟨[2, 2], [[0, 1], [0, 1]]⟩).1
          = .error (.sklearnError e)) ∧
    (∀ e, ("pca" : String) = "umap" →
      skPcaFail.umap 2 [[0, 1], [0, 1]] = .error e →
      (process_text skPcaFail mockService "Hello world" true "pca" 2).reduced_embeddings
          = some (zeroMat 2 2) ∧
      (DimensionalityReducer.reduce skPcaFail "pca" 2
          ⟨[2, 2], [[0, 1], [0, 1]]⟩).1
          = .error (.sklearnError e)) ∧
    (∀ sk₁ method₁ n₁ a₁ R tr,
      DimensionalityReducer.reduce sk₁ method₁ n₁ a₁ = (.ok R, tr) →
      tr = [Stage.standardize, Stage.project, Stage.rescale]) :=
  C5_amended_zero_substitution skPcaFail mockService "Hello world" "pca" 2 2
    [[0, 1], [0, 1]] [[0, 1], [0, 1]] rfl rfl (by decide) rfl

/-! ### C1: successful reduction gives shape [seq_len, n_components] and
values in [-1, 1] -/

/-- C1: for every 2-D input matrix with `seq_len = r` rows, every
`n_components ≤ r`, and a recognized method, if
`DimensionalityReducer.reduce` succeeds then the result has exactly `r` rows
of `n_components` entries each, and every entry lies in `[-1, 1]` —
assuming only the documented shape contracts of the external standardizer
and projections. -/
theorem C1_reduce_shape_range (sk : SkLearn) (method : String) (n : Nat)
    (a : NDArray) (r c : Nat) (R : Mat) (tr : List Stage)
    (hstd : StdContract sk.standardScaler) (hpca : ProjContract sk.pca)
    (humap : ProjContract sk.umap)
    (hshape : a.shape = [r, c]) (hwf : wellFormed a.mat r c)
    (hn : n ≤ r) (hmethod : method = "pca" ∨ method = "umap")
    (hok : DimensionalityReducer.reduce sk method n a = (.ok R, tr)) :
    wellFormed R r n ∧ ∀ row ∈ R, ∀ x ∈ row, -1 ≤ x ∧ x ≤ 1 := by
  unfold DimensionalityReducer.reduce at hok
  rw [hshape] at hok
  have hnot : ¬ r < n := not_lt.mpr hn
  simp only [hnot, if_false] at hok
  cases hsc : sk.standardScaler a.mat with
  | error e => rw [hsc] at hok; cases hok
  | ok Ms =>
    rw [hsc] at hok
    have hMs : wellFormed Ms r c := hstd _ _ _ _ hwf hsc
    rcases hmethod with rfl | rfl
    · simp only [if_pos rfl] at hok
      cases hp : sk.pca n Ms with
      | error e => rw [hp] at hok; cases hok
      | ok P =>
        rw [hp] at hok
        have hP : wellFormed P r n := hpca _ _ _ _ _ hMs hp
        injection hok with h1 h2
        injection h1 with h1
        subst h1
        exact ⟨minMaxScale_wf hP, minMaxScale_range P⟩
    · have hne : ("umap" : String) ≠ "pca" := by decide
      simp only [if_neg hne, if_pos rfl] at hok
      cases hu : sk.umap n Ms with
      | error e => rw [hu] at hok; cases hok
      | ok P =>
        rw [hu] at hok
        have hP : wellFormed P r n := humap _ _ _ _ _ hMs hu
        injection hok with h1 h2
        injection h1 with h1
        subst h1
        exact ⟨minMaxScale_wf hP, minMaxScale_range P⟩

/-- Witness for C1 (the spec's example scenario 3 in miniature): a 2×2
matrix reduced with PCA to 2 components. -/
theorem C1_witness :
    wellFormed [[-1, -1], [1, 1]] 2 2 ∧
    ∀ row ∈ ([[-1, -1], [1, 1]] : Mat), ∀ x ∈ row, -1 ≤ x ∧ x ≤ 1 := by
  have hok : DimensionalityReducer.reduce skId "pca" 2
      ⟨[2, 2], [[1, 2], [3, 4]]⟩
      = (.ok [[-1, -1], [1, 1]],
         [Stage.standardize, Stage.project, Stage.rescale]) := by
    simp only [DimensionalityReducer.reduce, skId, projTake, minMaxScale,
      mmScale, colGet, listMin, listMax]
    norm_num [List.range_succ]
  exact C1_reduce_shape_range skId "pca" 2 ⟨[2, 2], [[1, 2], [3, 4]]⟩ 2 2
    [[-1, -1], [1, 1]] [Stage.standardize, Stage.project, Stage.rescale]
    skId_std_contract skId_pca_contract skId_umap_contract
    rfl (by decide) (by decide) (Or.inl rfl) hok

/-! ### C2: one inference call returns aligned structures -/

/-- C2: for every non-empty text and loaded model whose encoder satisfies
the collaborator contract (one hidden-state row per input id, square
per-head attention over the ids), `get_embeddings_and_attention` returns a
token list, hidden-state matrix and attention tensor with one common
`seq_len`: the token count equals the hidden-state row count and both
dimensions of every per-layer, per-head attention matrix. -/
theorem C2_inference_alignment (svc : ModelService) (text : String)
    (_h_ne : text ≠ "")
    (halign : (svc.model.forward (svc.tokenizer.encode text true)).Aligned
        (svc.tokenizer.encode text true).length) :
    (svc.get_embeddings_and_attention text).1.length
        = (svc.get_embeddings_and_attention text).2.1.length ∧
    ∀ layer ∈ (svc.get_embeddings_and_attention text).2.2,
      ∀ hd ∈ layer,
        hd.length = (svc.get_embeddings_and_attention text).1.length ∧
        ∀ row ∈ hd, row.length
            = (svc.get_embeddings_and_attention text).1.length := by
  obtain ⟨hhid, hatt⟩ := halign
  unfold ModelService.get_embeddings_and_attention
  simp only [Tokenizer.convertIdsToTokens, List.length_map]
  constructor
  · exact hhid.symm
  · intro layer hlayer hd hhd
    obtain ⟨hlen, hrows⟩ := hatt layer hlayer hd hhd
    exact ⟨hlen, hrows⟩

/-- A concrete aligned mock service (one layer, one head; two ids for any
non-empty text, none for the empty text). -/
def alignedService : ModelService where
  model_name := "gpt2"
  tokenizer :=
    { encode := fun t _ => if t = "" then [] else [5, 7]
      idToToken := fun i => toString i }
  model :=
    { forward := fun ids =>
        ⟨ids.map (fun _ => [0, 0]),
         [[ids.map (fun _ => ids.map (fun _ => (0 : ℚ)))]]⟩ }

/-- Witness for C2 at `text = "Hello world"` on the aligned mock. -/
theorem C2_witness :
    (alignedService.get_embeddings_and_attention "Hello world").1.length
        = (alignedService.get_embeddings_and_attention "Hello world").2.1.length ∧
    ∀ layer ∈ (alignedService.get_embeddings_and_attention "Hello world").2.2,
      ∀ hd ∈ layer,
        hd.length
            = (alignedService.get_embeddings_and_attention "Hello world").1.length ∧
        ∀ row ∈ hd, row.length
            = (alignedService.get_embeddings_and_attention "Hello world").1.length :=
  C2_inference_alignment alignedService "Hello world" (by decide) (by decide)

/-! ### C9: empty text gives empty structures, without an error -/

/-- C9: for the empty text, provided the tokenizer maps it to an empty id
list and the encoder's forward pass respects the alignment contract on zero
ids, `tokenize_text` returns an empty token list and
`get_embeddings_and_attention` returns an empty token list, a zero-row
hidden-state matrix and 0×0 attention matrices; both are total calls (no
error path exists). -/
theorem C9_empty_text (svc : ModelService)
    (htok : ∀ b, svc.tokenizer.encode "" b = [])
    (halign : (svc.model.forward []).Aligned 0) :
    svc.tokenize_text "" = [] ∧
    (svc.get_embeddings_and_attention "").1 = [] ∧
    (svc.get_embeddings_and_attention "").2.1 = [] ∧
    ∀ layer ∈ (svc.get_embeddings_and_attention "").2.2,
      ∀ hd ∈ layer, hd = [] := by
  obtain ⟨hhid, hatt⟩ := halign
  unfold ModelService.tokenize_text ModelService.get_embeddings_and_attention
  simp only [htok, Tokenizer.convertIdsToTokens, List.map_nil]
  refine ⟨trivial, trivial, List.length_eq_zero.mp hhid, ?_⟩
  intro layer hlayer hd hhd
  exact List.length_eq_zero.mp (hatt layer hlayer hd hhd).1

/-- Witness for C9 on the aligned mock service. -/
theorem C9_witness :
    alignedService.tokenize_text "" = [] ∧
    (alignedService.get_embeddings_and_attention "").1 = [] ∧
    (alignedService.get_embeddings_and_attention "").2.1 = [] ∧
    ∀ layer ∈ (alignedService.get_embeddings_and_attention "").2.2,
      ∀ hd ∈ layer, hd = [] :=
  C9_empty_text alignedService (fun _ => rfl) (by decide)

/-! ### C6 / C7: model-cache behavior -/

theorem init_managerCache (ld : Loader) (s : CacheState) (name : String) :
    (ModelService.init ld s name).2.1.managerCache = s.managerCache := by
  unfold ModelService.init
  repeat' split
  all_goals (try rfl)
  all_goals (dsimp only; repeat' split)
  all_goals rfl

theorem lookup_none_not_mem {β : Type _} {l : List (String × β)} {k : String}
    (h : l.lookup k = none) : k ∉ l.map Prod.fst := by
  induction l with
  | nil => simp
  | cons p t ih =>
    obtain ⟨k', v⟩ := p
    by_cases hk : k = k'
    · subst hk
      simp [List.lookup] at h
    · have hb : (k == k') = false := beq_eq_false_iff_ne.mpr hk
      simp only [List.lookup, hb] at h
      simp only [List.map_cons, List.mem_cons]
      intro hmem
      rcases hmem with hmem | hmem
      · exact hk hmem
      · exact ih h hmem

/-- C6: a successful `get_model` call leaves the caches in a state where a
second sequential `get_model` for the same name returns the very same
handle, changes nothing, and performs no load; and `get_model` preserves
distinctness of the cached names (at most one handle per name). -/
theorem C6_get_model_idempotent (ld : Loader) (s s₁ : CacheState)
    (name : String) (svc : ModelService) (ev : List LoadEvent)
    (h : ModelManager.get_model ld s name = (.ok svc, s₁, ev)) :
    ModelManager.get_model ld s₁ name = (.ok svc, s₁, []) ∧
    ((s.managerCache.map Prod.fst).Nodup →
      (s₁.managerCache.map Prod.fst).Nodup) := by
  unfold ModelManager.get_model at h ⊢
  cases hmc : s.managerCache.lookup name with
  | some svc₀ =>
    rw [hmc] at h
    injection h with h1 h2
    injection h1 with h1
    injection h2 with h2 h3
    subst h1
    subst h2
    rw [hmc]
    exact ⟨rfl, id⟩
  | none =>
    rw [hmc] at h
    rcases hinit : ModelService.init ld s name with ⟨res, s', evs⟩
    rw [hinit] at h
    cases res with
    | error e =>
      exfalso
      simp only [] at h
      injection h with h1 h2
      cases h1
    | ok svc' =>
      simp only [] at h
      injection h with h1 h2
      injection h1 with h1
      injection h2 with h2 h3
      have hm : s'.managerCache = s.managerCache := by
        have hmgr := init_managerCache ld s name
        rw [hinit] at hmgr
        exact hmgr
      constructor
      · rw [← h2, ← h1]
        have hlk : (({ s' with
            managerCache := (name, svc') :: s'.managerCache } :
              CacheState).managerCache).lookup name = some svc' := by
          simp [List.lookup]
        rw [hlk]
      · intro hnd
        rw [← h2]
        simp only [List.map_cons]
        refine List.nodup_cons.mpr ⟨?_, ?_⟩
        · rw [hm]
          exact lookup_none_not_mem hmc
        · rw [hm]
          exact hnd

/-- A loader that succeeds on every name with the mock tokenizer/encoder. -/
def mockLoader : Loader where
  loadTokenizer := fun _ => .ok mockTokenizer
  loadModel := fun _ => .ok mockEnc

/-- The state of all three caches before any request. -/
def emptyCaches : CacheState := ⟨[], [], []⟩

/-- The caches after the first successful `get_model` for "gpt2" against
`mockLoader`. -/
def cachedState : CacheState :=
  ⟨[("gpt2", mockTokenizer)], [("gpt2", mockEnc)], [("gpt2", mockService)]⟩

/-- Witness for C6: after a first acquire of "gpt2" on empty caches, the
second acquire returns the identical handle with no load events. -/
theorem C6_witness :
    ModelManager.get_model mockLoader cachedState "gpt2"
        = (.ok mockService, cachedState, []) ∧
    ((emptyCaches.managerCache.map Prod.fst).Nodup →
      (cachedState.managerCache.map Prod.fst).Nodup) :=
  C6_get_model_idempotent mockLoader emptyCaches cachedState "gpt2"
    mockService [.tokenizerLoad "gpt2", .modelLoad "gpt2"] rfl

/-- C7: when `get_model` fails (the loader raised), no handle is cached
under that name — the manager cache is exactly as before and still has no
entry for the name — and a later `get_model` against a loader that can now
load the name succeeds, performing at least one fresh load (the failure was
not cached). -/
theorem C7_failed_load_not_cached (ld : Loader) (s s₁ : CacheState)
    (name e : String) (ev : List LoadEvent)
    (h : ModelManager.get_model ld s name = (.error e, s₁, ev))
    (ld' : Loader) (tok : Tokenizer) (mdl : EncModel)
    (ht : ld'.loadTokenizer name = .ok tok)
    (hm : ld'.loadModel name = .ok mdl) :
    s₁.managerCache = s.managerCache ∧
    s₁.managerCache.lookup name = none ∧
    ∃ svc s₂ ev₂, ModelManager.get_model ld' s₁ name = (.ok svc, s₂, ev₂)
      ∧ ev₂ ≠ [] := by
  unfold ModelManager.get_model at h
  cases hmc : s.managerCache.lookup name with
  | some svc₀ =>
    rw [hmc] at h
    injection h with h1 h2
    cases h1
  | none =>
    rw [hmc] at h
    unfold ModelService.init at h
    cases htk : s.tokenizerCache.lookup name with
    | some tok₀ =>
      rw [htk] at h
      cases hmd : s.modelCache.lookup name with
      | some mdl₀ =>
        rw [hmd] at h
        simp only [] at h
        injection h with h1 h2
        cases h1
      | none =>
        rw [hmd] at h
        cases hldm : ld.loadModel name with
        | ok mdl₀ =>
          rw [hldm] at h
          simp only [] at h
          injection h with h1 h2
          cases h1
        | error e₀ =>
          rw [hldm] at h
          simp only [] at h
          injection h with h1 h2
          injection h2 with h2 h3
          rw [← h2]
          refine ⟨rfl, hmc, ?_⟩
          refine ⟨⟨name, tok₀, mdl⟩,
            ⟨s.tokenizerCache, (name, mdl) :: s.modelCache,
             (name, ⟨name, tok₀, mdl⟩) :: s.managerCache⟩,
            [.modelLoad name], ?_, by simp⟩
          unfold ModelManager.get_model ModelService.init
          rw [hmc, htk, hmd, hm]
    | none =>
      rw [htk] at h
      cases hldt : ld.loadTokenizer name with
      | error e₀ =>
        rw [hldt] at h
        simp only [] at h
        injection h with h1 h2
        injection h2 with h2 h3
        rw [← h2]
        refine ⟨rfl, hmc, ?_⟩
        cases hmd : s.modelCache.lookup name with
        | some mdl₀ =>
          refine ⟨⟨name, tok, mdl₀⟩,
            ⟨(name, tok) :: s.tokenizerCache, s.modelCache,
             (name, ⟨name, tok, mdl₀⟩) :: s.managerCache⟩,
            [.tokenizerLoad name], ?_, by simp⟩
          unfold ModelManager.get_model ModelService.init
          rw [hmc, htk, ht]
          dsimp only
          rw [hmd]
        | none =>
          refine ⟨⟨name, tok, mdl⟩,
            ⟨(name, tok) :: s.tokenizerCache, (name, mdl) :: s.modelCache,
             (name, ⟨name, tok, mdl⟩) :: s.managerCache⟩,
            [.tokenizerLoad name, .modelLoad name], ?_, by simp⟩
          unfold ModelManager.get_model ModelService.init
          rw [hmc, htk, ht]
          dsimp only
          rw [hmd, hm]
      | ok tok₀ =>
        rw [hldt] at h
        simp only [] at h
        cases hmd : s.modelCache.lookup name with
        | some mdl₀ =>
          rw [hmd] at h
          injection h with h1 h2
          cases h1
        | none =>
          rw [hmd] at h
          cases hldm : ld.loadModel name with
          | ok mdl₀ =>
            rw [hldm] at h
            injection h with h1 h2
            cases h1
          | error e₀ =>
            rw [hldm] at h
            injection h with h1 h2
            injection h2 with h2 h3
            rw [← h2]
            refine ⟨rfl, hmc, ?_⟩
            refine ⟨⟨name, tok₀, mdl⟩,
              ⟨(name, tok₀) :: s.tokenizerCache, (name, mdl) :: s.modelCache,
               (name, ⟨name, tok₀, mdl⟩) :: s.managerCache⟩,
              [.modelLoad name], ?_, by simp⟩
            unfold ModelManager.get_model ModelService.init
            dsimp only
            have hlkt : ((name, tok₀) :: s.tokenizerCache).lookup name
                = some tok₀ := by simp [List.lookup]
            rw [hmc, hlkt, hmd, hm]

/-- A loader that fails on every name (an unknown model). -/
def failLoader : Loader where
  loadTokenizer := fun _ => .error "404 Client Error"
  loadModel := fun _ => .error "404 Client Error"

/-- Witness for C7 (the spec's example scenario 5): loading
"does-not-exist" fails, no handle is cached, and a retry with a working
loader succeeds with a fresh load. -/
theorem C7_witness :
    emptyCaches.managerCache = emptyCaches.managerCache ∧
    emptyCaches.managerCache.lookup "does-not-exist" = none ∧
    ∃ svc s₂ ev₂,
      ModelManager.get_model mockLoader emptyCaches "does-not-exist"
          = (.ok svc, s₂, ev₂) ∧ ev₂ ≠ [] :=
  C7_failed_load_not_cached failLoader emptyCaches emptyCaches
    "does-not-exist" "404 Client Error" [.tokenizerLoad "does-not-exist"]
    rfl mockLoader mockTokenizer mockEnc rfl rfl

/-! ### C8: the standalone tokenize endpoint -/

/-- C8 is contradicted by the code: `ModelManager` defines no
`tokenize_only` attribute, so the `/tokenize` handler's call
`model_manager.tokenize_only(...)` raises `AttributeError` and every
tokenize request — here the failing input `text = "Hello world"`,
`model_name = "gpt2"` — is answered with an internal-error response instead
of the token list that the claim (and the repository's own endpoint tests)
describe.  `ModelService.tokenize_text`, the operation the claim is about,
does omit special tokens (`add_special_tokens=False`), as its embedding
records. -/
theorem C8_tokenize_endpoint_missing_attribute :
    tokenizeEndpoint alignedService "Hello world" "gpt2"
        = .error (.internalError
            "Error tokenizing text: ModelManager object has no attribute tokenize_only") ∧
    ModelManager.attributes.contains "tokenize_only" = false :=
  ⟨rfl, rfl⟩
